import Mathlib

/-!
Verification of the PyR0 proof-composition core (src/src of the repository)
against its natural-language specification.

The development shallowly embeds the Rust sources:
* `receipt.rs`  → `Receipt`, `ReceiptKind`, `ExitKind`, `ExitStatus` and the
  receipt methods (`kindOf`, `isUnconditional`, `assumptionCount`, `exit`,
  `exitCodeGetter`, `verifyHex`, `verifyBytes`, `verifyIntegrity`,
  `toBytes`/`fromBytes`);
* `claim.rs`    → `ClaimPy` and `ClaimPy.fromRisc0`;
* `composer.rs` → `Composer` with `assume`, `expectVerification`, the write
  operations, `preflightCheck` and `prove`;
* `input_builder.rs` → `InputBuilder` and its write operations.

Machine bytes are modelled as `Nat` (each < 256 where it matters), byte
strings as `List Nat`, and Python-level errors as the inductive `PyErr`
(one constructor per distinct error site in the sources; the formatted
message strings are abstracted away).  External collaborators — the SHA-256
implementation, the risc0 prover/verifier backend and the bincode codec —
are taken as explicit parameters, following §6.4 of the specification which
treats them as abstract interfaces.
-/

/-- A 32-byte digest, modelled as a list of byte values. -/
abbrev ByteDigest := List Nat

/-- A claim key: the `(image_id, journal_digest)` pair used for dedup and
preflight matching (composer.rs:25, spec §3). -/
abbrev ClaimKey := ByteDigest × ByteDigest

/-- The SHA-256 hash function (`risc0_zkvm::sha::Impl::hash_bytes`), external
to the repository, taken as a parameter throughout. -/
abbrev HashFn := List Nat → ByteDigest

/-- `u32::MAX`, the sentinel the legacy getters return when no user exit code
exists (receipt.rs:161, claim.rs:115). -/
def u32Max : Nat := 4294967295

/-- Preflight issues (composer.rs:250-339).  The source pushes formatted
strings; each constructor models the content of one string shape. -/
inductive Issue where
  | invalidImageId (len : Nat)
  | missingAssumption (k : ClaimKey)
  | notEnoughAssumptions (k : ClaimKey) (expected actual : Nat)
  | unusedAssumption (k : ClaimKey)
deriving DecidableEq

/-- Python-level errors raised by the core.  One constructor per distinct
error site in the sources; message strings are abstracted. -/
inductive PyErr where
  | isComposite
  | isFake
  | failedExit
  | claimDecodeFailed
  | claimPruned
  | invalidImageIdLen (len : Nat)
  | preflightFailed (issues : List Issue)
  | invalidHex
  | invalidLength (len : Nat)
  | verificationFailed
  | integrityInvalidClaim
  | integrityPruned
  | fakeNotProvable
  | proverError
  | claimMismatchLikely
  | deserializeError
deriving DecidableEq

/-- `risc0_zkvm::ExitCode` (external enum matched in receipt.rs:147-152 and
claim.rs:112-116). -/
inductive R0ExitCode where
  | halted (code : Nat)
  | paused (code : Nat)
  | systemSplit
  | sessionLimit
deriving DecidableEq

/-- The four `risc0_zkvm::InnerReceipt` variants matched in receipt.rs:241-247;
a composite carries its `assumption_receipts` list, of which the core only
reads the length (receipt.rs:287). -/
inductive InnerKind where
  | composite (assumptionReceipts : Nat)
  | succinct
  | groth16
  | fake
deriving DecidableEq

/-- The part of `risc0_zkvm::ReceiptClaim` the core reads: the digest of the
pre-state (`claim.pre.digest()`, identical for the `Value` and `Pruned` arms)
and the exit code. -/
structure R0ReceiptClaim where
  pre : ByteDigest
  exit_code : R0ExitCode
deriving DecidableEq

/-- Result of reading a risc0 receipt's claim: `inner.claim()` can fail to
decode, and `as_value()` on the result can find the claim pruned
(receipt.rs:122-131 and every other claim read in the sources). -/
inductive ClaimAvail where
  | ok (c : R0ReceiptClaim)
  | prunedClaim
  | decodeErr
deriving DecidableEq

/-- Model of `risc0_zkvm::Receipt`: the journal bytes, the inner-receipt
variant, the claim as the core can read it, and `sealValid` — whether the
backend's cryptographic seal check for this receipt against its claim and
journal passes (external property, never computed by the core). -/
structure R0Receipt where
  inner : InnerKind
  journal : List Nat
  claimAvail : ClaimAvail
  sealValid : Bool
deriving DecidableEq

/-- `ExitKind` (receipt.rs:30-41). -/
inductive ExitKind where
  | halted
  | paused
  | systemSplit
  | sessionLimit
deriving DecidableEq

/-- `ExitStatus` (receipt.rs:46-51). -/
structure ExitStatus where
  kind : ExitKind
  userCode : Option Nat
deriving DecidableEq

/-- `ExitStatus::ok` (receipt.rs:57-59): halted with user code 0. -/
def ExitStatus.ok (e : ExitStatus) : Bool :=
  e.kind == ExitKind.halted && e.userCode == some 0

/-- The match in `Receipt::exit` mapping a risc0 exit code to an
`ExitStatus` (receipt.rs:147-152). -/
def exitStatusOf : R0ExitCode → ExitStatus
  | .halted c => ⟨.halted, some c⟩
  | .paused c => ⟨.paused, some c⟩
  | .systemSplit => ⟨.systemSplit, none⟩
  | .sessionLimit => ⟨.sessionLimit, none⟩

/-- Modelled from the spec: `risc0_zkvm::Receipt::verify` is backend code
external to this repository.  Per spec §4.4 and §6.4 it checks seal
integrity and claim↔journal consistency (the `sealValid` field), the
claimed image id against the trusted expected one, and a successful exit. -/
def r0verify (r : R0Receipt) (expected : ByteDigest) : Bool :=
  match r.claimAvail with
  | .ok c => r.sealValid && (c.pre == expected) && (exitStatusOf c.exit_code).ok
  | _ => false

/-- `ReceiptKind` (receipt.rs:15-24). -/
inductive ReceiptKind where
  | composite
  | succinct
  | groth16
  | fake
deriving DecidableEq

/-- `pyr0::Receipt`, the Python-facing wrapper over a risc0 receipt
(receipt.rs:72-74). -/
structure Receipt where
  inner : R0Receipt
deriving DecidableEq

/-- `Receipt::kind` (receipt.rs:238-248). -/
def Receipt.kindOf (r : Receipt) : ReceiptKind :=
  match r.inner.inner with
  | .composite _ => .composite
  | .succinct => .succinct
  | .groth16 => .groth16
  | .fake => .fake

/-- `Receipt::is_unconditional` (receipt.rs:255-265). -/
def Receipt.isUnconditional (r : Receipt) : Bool :=
  match r.inner.inner with
  | .composite _ => false
  | .succinct => true
  | .groth16 => true
  | .fake => true

/-- `Receipt::is_succinct` (receipt.rs:269-273). -/
def Receipt.isSuccinct (r : Receipt) : Bool :=
  match r.inner.inner with
  | .succinct => true
  | _ => false

/-- `Receipt::assumption_count` (receipt.rs:281-291). -/
def Receipt.assumptionCount (r : Receipt) : Nat :=
  match r.inner.inner with
  | .composite n => n
  | _ => 0

/-- `Receipt::exit` (receipt.rs:138-155): read the claim, then classify the
exit code. -/
def Receipt.exit (r : Receipt) : Except PyErr ExitStatus :=
  match r.inner.claimAvail with
  | .decodeErr => .error .claimDecodeFailed
  | .prunedClaim => .error .claimPruned
  | .ok c => .ok (exitStatusOf c.exit_code)

/-- The legacy `exit_code` getter (receipt.rs:159-162):
`exit.user_code.unwrap_or(u32::MAX)`. -/
def Receipt.exitCodeGetter (r : Receipt) : Except PyErr Nat :=
  match r.exit with
  | .error e => .error e
  | .ok s => .ok (s.userCode.getD u32Max)

/-- `pyr0::Claim` (claim.rs:10-27). -/
structure ClaimPy where
  image_id : ByteDigest
  journal : List Nat
  journal_digest : ByteDigest
  exit_code : Nat
deriving DecidableEq

/-- `Claim::is_success` (claim.rs:71-73). -/
def ClaimPy.isSuccess (c : ClaimPy) : Bool :=
  c.exit_code == 0

/-- `Claim::from_risc0_claim` (claim.rs:101-128): image id from the pre-state
digest, exit code with `u32::MAX` for the system exits, journal digest
recomputed from the journal bytes. -/
def ClaimPy.fromRisc0 (hash : HashFn) (cl : R0ReceiptClaim) (journalBytes : List Nat) : ClaimPy :=
  { image_id := cl.pre
    journal := journalBytes
    journal_digest := hash journalBytes
    exit_code :=
      match cl.exit_code with
      | .halted c => c
      | .paused c => c
      | _ => u32Max }

/-- `Receipt::claim` (receipt.rs:122-132). -/
def Receipt.claimPy (hash : HashFn) (r : Receipt) : Except PyErr ClaimPy :=
  match r.inner.claimAvail with
  | .decodeErr => .error .claimDecodeFailed
  | .prunedClaim => .error .claimPruned
  | .ok cl => .ok (ClaimPy.fromRisc0 hash cl r.inner.journal)

/-- `Receipt::verify_integrity` (receipt.rs:359-374): reads the claim and
checks it decodes and is not pruned; nothing else (the source's own comment
records that seal verification is not performed here). -/
def Receipt.verifyIntegrity (r : Receipt) : Except PyErr Unit :=
  match r.inner.claimAvail with
  | .decodeErr => .error .integrityInvalidClaim
  | .prunedClaim => .error .integrityPruned
  | .ok _ => .ok ()

/-- `Receipt::verify_bytes` (receipt.rs:338-350): 32-byte length check, then
the backend verification. -/
def Receipt.verifyBytes (r : Receipt) (imageId : List Nat) : Except PyErr Unit :=
  if imageId.length ≠ 32 then .error (.invalidLength imageId.length)
  else if r0verify r.inner imageId then .ok () else .error .verificationFailed

/-- Hex digit value of an ASCII byte, as the `hex` crate decodes it:
`0`-`9`, `a`-`f` and `A`-`F`. -/
def hexVal (c : Nat) : Option Nat :=
  if 48 ≤ c ∧ c ≤ 57 then some (c - 48)
  else if 97 ≤ c ∧ c ≤ 102 then some (c - 87)
  else if 65 ≤ c ∧ c ≤ 70 then some (c - 55)
  else none

/-- `hex::decode`: pairs of hex digits to bytes; fails on odd length or a
non-hex byte. -/
def decodeHex : List Nat → Option (List Nat)
  | [] => some []
  | [_] => none
  | c1 :: c2 :: rest =>
    match hexVal c1, hexVal c2, decodeHex rest with
    | some h, some l, some r => some ((16 * h + l) :: r)
    | _, _, _ => none

/-- ASCII uppercasing of one byte, as Python's `str.upper` acts on ASCII. -/
def upperAscii (c : Nat) : Nat :=
  if 97 ≤ c ∧ c ≤ 122 then c - 32 else c

/-- The prefix handling of `Receipt::verify_hex` (receipt.rs:305-309): drop a
leading `"0x"` (bytes 48,120) or `"0X"` (bytes 48,88). -/
def stripHexMarker (s : List Nat) : List Nat :=
  match s with
  | a :: b :: rest => if a = 48 ∧ (b = 120 ∨ b = 88) then rest else s
  | _ => s

/-- `Receipt::verify_hex` (receipt.rs:303-328): strip the optional marker,
hex-decode, require 32 bytes, then verify.  (`Digest::try_from` on a 32-byte
slice never fails and is omitted.) -/
def Receipt.verifyHex (r : Receipt) (s : List Nat) : Except PyErr Unit :=
  match decodeHex (stripHexMarker s) with
  | none => .error .invalidHex
  | some bytes =>
    if bytes.length ≠ 32 then .error (.invalidLength bytes.length)
    else if r0verify r.inner bytes then .ok () else .error .verificationFailed

/-- Modelled from the spec: the bincode serialization of a risc0 receipt
(receipt.rs:424-435) is external backend code; spec §6.1 treats it as a
codec with a round-trip contract, taken here as a parameter. -/
structure SerDe where
  ser : R0Receipt → List Nat
  deser : List Nat → Option R0Receipt

/-- `Receipt::to_bytes` (receipt.rs:424-427): serialize the inner receipt. -/
def Receipt.toBytes (sd : SerDe) (r : Receipt) : List Nat :=
  sd.ser r.inner

/-- `Receipt::from_bytes` (receipt.rs:431-435): deserialize, wrapping failure
as the deserialize error. -/
def Receipt.fromBytes (sd : SerDe) (bs : List Nat) : Except PyErr Receipt :=
  match sd.deser bs with
  | some i => .ok ⟨i⟩
  | none => .error .deserializeError

/-- Little-endian byte encoding of `v` on `w` bytes, as Rust's
`to_le_bytes` produces for an in-range value. -/
def leBytes : Nat → Nat → List Nat
  | 0, _ => []
  | w + 1, v => (v % 256) :: leBytes w (v / 256)

/-- The guest-side read of a little-endian integer from bytes
(`u64::from_le_bytes` and friends). -/
def readLE (bs : List Nat) : Nat :=
  bs.foldr (fun b acc => b + 256 * acc) 0

/-- `pyr0::InputBuilder` (input_builder.rs:21-23): an append-only byte
buffer. -/
structure InputBuilder where
  data : List Nat
deriving DecidableEq

/-- `InputBuilder::new` (input_builder.rs:29-33). -/
def InputBuilder.new : InputBuilder := ⟨[]⟩

/-- `InputBuilder::write_raw_bytes` / `write_raw_bytes_internal`
(input_builder.rs:128-131, 240-242). -/
def InputBuilder.writeRawBytes (st : InputBuilder) (bs : List Nat) : InputBuilder :=
  ⟨st.data ++ bs⟩

/-- `InputBuilder::write_u32` / `write_u32_internal`
(input_builder.rs:66-69, 221-223). -/
def InputBuilder.writeU32 (st : InputBuilder) (v : Nat) : InputBuilder :=
  ⟨st.data ++ leBytes 4 v⟩

/-- `InputBuilder::write_u64` / `write_u64_internal`
(input_builder.rs:79-82, 226-228). -/
def InputBuilder.writeU64 (st : InputBuilder) (v : Nat) : InputBuilder :=
  ⟨st.data ++ leBytes 8 v⟩

/-- `InputBuilder::write_frame` / `write_frame_internal`
(input_builder.rs:198-203, 245-249): a `u64` little-endian length then the
payload bytes. -/
def InputBuilder.writeFrame (st : InputBuilder) (bs : List Nat) : InputBuilder :=
  ⟨st.data ++ leBytes 8 bs.length ++ bs⟩

/-- `InputBuilder::write_cbor_frame` / internal (input_builder.rs:179-184,
214-218): identical framing to `writeFrame`. -/
def InputBuilder.writeCborFrame (st : InputBuilder) (bs : List Nat) : InputBuilder :=
  ⟨st.data ++ leBytes 8 bs.length ++ bs⟩

/-- `InputBuilder::write_cbor` / internal (input_builder.rs:53-56,
209-211): raw append, no framing. -/
def InputBuilder.writeCbor (st : InputBuilder) (bs : List Nat) : InputBuilder :=
  ⟨st.data ++ bs⟩

/-- `InputBuilder::write_bytes32` (input_builder.rs:93-101): exact-length
check then raw append. -/
def InputBuilder.writeBytes32 (st : InputBuilder) (bs : List Nat) : Except PyErr InputBuilder :=
  if bs.length ≠ 32 then .error (.invalidLength bs.length)
  else .ok (st.writeRawBytes bs)

/-- `pyr0::Composer` (composer.rs:22-28): assumption receipts in insertion
order, the claim-key set used for dedup, the input buffer, and the
registered expected verifications.  The `image` field is an opaque handle
the composition logic never inspects and is omitted. -/
structure Composer where
  assumptions : List R0Receipt
  assumptionDigests : List ClaimKey
  inputData : List Nat
  expectedVerifications : List (List Nat × List Nat)
deriving DecidableEq

/-- `Composer::new` (composer.rs:34-42). -/
def Composer.new : Composer :=
  ⟨[], [], [], []⟩

/-- The claim key `(image_id_digest, SHA256(journal))` of a receipt, when its
claim is readable (composer.rs:103-113). -/
def claimKeyOf (hash : HashFn) (r : R0Receipt) : Option ClaimKey :=
  match r.claimAvail with
  | .ok cl => some (cl.pre, hash r.journal)
  | _ => none

/-- `Composer::assume` (composer.rs:75-123): reject composite, fake and
failed receipts, reject unreadable claims, then insert the receipt and its
claim key unless the key is already present (dedup no-op). -/
def Composer.assume (hash : HashFn) (c : Composer) (r : Receipt) : Except PyErr Composer :=
  if !r.isUnconditional then .error .isComposite
  else if r.kindOf == ReceiptKind.fake then .error .isFake
  else
    match r.inner.claimAvail with
    | .decodeErr => .error .claimDecodeFailed
    | .prunedClaim => .error .claimPruned
    | .ok cl =>
      if !(exitStatusOf cl.exit_code).ok then .error .failedExit
      else if (cl.pre, hash r.inner.journal) ∈ c.assumptionDigests then .ok c
      else .ok { c with
        assumptions := c.assumptions ++ [r.inner]
        assumptionDigests := c.assumptionDigests ++ [(cl.pre, hash r.inner.journal)] }

/-- `Composer::assumption_count` (composer.rs:448-451). -/
def Composer.assumptionCount (c : Composer) : Nat :=
  c.assumptions.length

/-- `Composer::write_u32` (composer.rs:153-156), delegating to the internal
input builder. -/
def Composer.writeU32 (c : Composer) (v : Nat) : Composer :=
  { c with inputData := c.inputData ++ leBytes 4 v }

/-- `Composer::write_u64` (composer.rs:162-165). -/
def Composer.writeU64 (c : Composer) (v : Nat) : Composer :=
  { c with inputData := c.inputData ++ leBytes 8 v }

/-- `Composer::write_raw_bytes` (composer.rs:171-174). -/
def Composer.writeRawBytes (c : Composer) (bs : List Nat) : Composer :=
  { c with inputData := c.inputData ++ bs }

/-- `Composer::write_frame` (composer.rs:182-185). -/
def Composer.writeFrame (c : Composer) (bs : List Nat) : Composer :=
  { c with inputData := c.inputData ++ leBytes 8 bs.length ++ bs }

/-- `Composer::write_bytes32` (composer.rs:198-206). -/
def Composer.writeBytes32 (c : Composer) (bs : List Nat) : Except PyErr Composer :=
  if bs.length ≠ 32 then .error (.invalidLength bs.length)
  else .ok (c.writeRawBytes bs)

/-- `Composer::expect_verification` (composer.rs:224-232): validate the image
id length and append the `(image_id, journal)` pair. -/
def Composer.expectVerification (c : Composer) (imageId journal : List Nat) :
    Except PyErr Composer :=
  if imageId.length ≠ 32 then .error (.invalidImageIdLen imageId.length)
  else .ok { c with expectedVerifications := c.expectedVerifications ++ [(imageId, journal)] }

/-- The claim keys of the composer's assumption receipts, in order
(the `assumption_claims` multiset of composer.rs:254-265; receipts whose
claim does not read are skipped there). -/
def aKeys (hash : HashFn) (c : Composer) : List ClaimKey :=
  c.assumptions.filterMap (claimKeyOf hash)

/-- The claim keys of the valid-length expected verifications, in order
(the `expected_claims` multiset of composer.rs:268-284). -/
def eKeys (hash : HashFn) (c : Composer) : List ClaimKey :=
  (c.expectedVerifications.filter (fun p => p.1.length == 32)).map
    (fun p => (p.1, hash p.2))

/-- The claim keys of all registered expectations (spec §3:
`(image_id, SHA256(journal))` per expectation). -/
def eKeysAll (hash : HashFn) (c : Composer) : List ClaimKey :=
  c.expectedVerifications.map (fun p => (p.1, hash p.2))

/-- The issue list computed by `Composer::preflight_check`
(composer.rs:250-315): invalid-length expectations, then missing or
insufficient assumptions for each expected key, then unused assumptions.
HashMap lookups are modelled by counting in the key lists; the map counts
equal the list counts, and a key is absent from a map exactly when its
count is zero. -/
def preflightIssues (hash : HashFn) (c : Composer) : List Issue :=
  let aList := aKeys hash c
  let eList := eKeys hash c
  let invalid := (c.expectedVerifications.filter (fun p => !(p.1.length == 32))).map
    (fun p => Issue.invalidImageId p.1.length)
  let missing := eList.dedup.filterMap (fun k =>
    if aList.count k = 0 then some (Issue.missingAssumption k)
    else if aList.count k < eList.count k then
      some (Issue.notEnoughAssumptions k (eList.count k) (aList.count k))
    else none)
  let unused := aList.dedup.filterMap (fun k =>
    if eList.count k = 0 then some (Issue.unusedAssumption k) else none)
  invalid ++ missing ++ unused

/-- `Composer::preflight_check` (composer.rs:250-339): compute the issues and
raise when requested.  (With `raise_on_error = false` the source also emits
Python warnings, a logging side effect outside the model.) -/
def Composer.preflightCheck (hash : HashFn) (c : Composer) (raiseOnError : Bool) :
    Except PyErr (List Issue) :=
  if raiseOnError && !(preflightIssues hash c).isEmpty then
    .error (.preflightFailed (preflightIssues hash c))
  else .ok (preflightIssues hash c)

/-- `Composer::prove` (composer.rs:360-439).  `prove` takes the composer by
shared reference (`&self`), so the composer state after the call is the
state before it — returned here as the second component.  The backend
invocation `default_prover().prove_with_opts` is external and is passed in
as `proverResult`; its error side carries whether the backend message
mentions assumptions or verification (the substring test of
composer.rs:426). -/
def Composer.prove (hash : HashFn) (c : Composer) (kindArg : Option ReceiptKind)
    (preflight : Bool) (proverResult : Except Bool R0Receipt) :
    Except PyErr Receipt × Composer :=
  let result : Except PyErr Receipt :=
    match (if preflight then c.preflightCheck hash true else .ok []) with
    | .error e => .error e
    | .ok _ =>
      match kindArg.getD ReceiptKind.succinct with
      | .fake => .error .fakeNotProvable
      | _ =>
        match proverResult with
        | .error mentionsMismatch =>
          .error (if mentionsMismatch then .claimMismatchLikely else .proverError)
        | .ok raw => .ok ⟨raw⟩
  (result, c)

/-- The composer state after a fallible operation: the new state on success,
the old state otherwise (a Rust method that returns `Err` before mutating
leaves `self` unchanged; every error path of `assume`,
`expect_verification` and `write_bytes32` returns before any mutation). -/
def resultState (e : Except PyErr Composer) (c : Composer) : Composer :=
  match e with
  | .ok c' => c'
  | .error _ => c

/-- Composer states reachable through the public API for a fixed hash
function: the fresh composer, successful `assume` and
`expect_verification` calls, and input writes (all of which only append to
the input buffer). -/
inductive Reachable (hash : HashFn) : Composer → Prop where
  | new : Reachable hash Composer.new
  | assume {c c' : Composer} {r : Receipt} :
      Reachable hash c → Composer.assume hash c r = .ok c' → Reachable hash c'
  | expect {c c' : Composer} {i j : List Nat} :
      Reachable hash c → Composer.expectVerification c i j = .ok c' → Reachable hash c'
  | write {c : Composer} (bs : List Nat) :
      Reachable hash c → Reachable hash { c with inputData := c.inputData ++ bs }

/-- Structural invariant of API-reachable composers: the dedup set equals
the list of claim keys of the assumption list, those keys are pairwise
distinct (dedup), and every registered expectation carries a 32-byte image
id (checked by `expect_verification`). -/
structure ComposerWF (hash : HashFn) (c : Composer) : Prop where
  digests_eq : c.assumptionDigests = aKeys hash c
  digests_nodup : c.assumptionDigests.Nodup
  expectLen : ∀ p ∈ c.expectedVerifications, p.1.length = 32

/-- Whether an `Except` carries a success, used to state that an operation
did not raise. -/
def isOkE {ε α : Type} : Except ε α → Bool
  | .ok _ => true
  | .error _ => false

/-- A concrete stand-in hash function for the concrete evaluation
theorems. -/
def hashW : HashFn := fun l => [l.length % 256]

/-- A valid unconditional receipt: succinct, successful exit, readable
claim, valid seal. -/
def rOk : Receipt :=
  ⟨⟨.succinct, [1], .ok ⟨List.replicate 32 2, .halted 0⟩, true⟩⟩

/-- A receipt distinct from `rOk` but with the same claim key (same
pre-state digest and journal). -/
def rOk2 : Receipt :=
  ⟨⟨.groth16, [1], .ok ⟨List.replicate 32 2, .halted 0⟩, false⟩⟩

/-- A composite receipt with two unresolved assumptions. -/
def rComposite : Receipt :=
  ⟨⟨.composite 2, [5], .ok ⟨List.replicate 32 3, .halted 0⟩, true⟩⟩

/-- A receipt for a failed execution: halted with user code 1. -/
def rHalted1 : Receipt :=
  ⟨⟨.succinct, [9], .ok ⟨List.replicate 32 4, .halted 1⟩, true⟩⟩

/-- A receipt whose claim reads fine but whose seal the backend would
reject. -/
def rBadSeal : Receipt :=
  ⟨⟨.succinct, [], .ok ⟨List.replicate 32 5, .halted 0⟩, false⟩⟩

/-- A receipt whose execution ended at a system split (no user code). -/
def rSys : Receipt :=
  ⟨⟨.succinct, [7], .ok ⟨List.replicate 32 6, .systemSplit⟩, true⟩⟩

/-- The composer after `assume hashW Composer.new rOk`. -/
def cW1 : Composer :=
  ⟨[rOk.inner], [(List.replicate 32 2, hashW [1])], [], []⟩

/-- The composer after additionally registering the matching expectation. -/
def cW2 : Composer :=
  ⟨[rOk.inner], [(List.replicate 32 2, hashW [1])], [],
    [(List.replicate 32 2, [1])]⟩

/-- A concrete codec for the serialization theorems: it round-trips on
`rOk.inner` and rejects every other byte string. -/
def sdW : SerDe :=
  ⟨fun _ => [0], fun bs => if bs = [0] then some rOk.inner else none⟩

theorem leBytes_length (w v : Nat) : (leBytes w v).length = w := by
  induction w generalizing v with
  | zero => rfl
  | succ w ih => simp [leBytes, ih]

theorem readLE_leBytes (w v : Nat) : readLE (leBytes w v) = v % 256 ^ w := by
  induction w generalizing v with
  | zero => simp [leBytes, readLE, Nat.mod_one]
  | succ w ih =>
    have hM : 0 < 256 * 256 ^ w := by positivity
    have h1 : v % 256 < 256 := Nat.mod_lt _ (by norm_num)
    have h2 : v / 256 % 256 ^ w < 256 ^ w := Nat.mod_lt _ (by positivity)
    have h3 : 256 * 1 ≤ 256 * 256 ^ w :=
      Nat.mul_le_mul_left _ (Nat.one_le_pow _ _ (by norm_num))
    have hlt : 256 * (v / 256 % 256 ^ w) + v % 256 < 256 * 256 ^ w := by nlinarith
    have key : v % 256 ^ (w + 1) = v % 256 + 256 * (v / 256 % 256 ^ w) := by
      conv_lhs => rw [← Nat.div_add_mod v 256, pow_succ, mul_comm (256 ^ w) 256]
      rw [Nat.add_mod, Nat.mul_mod_mul_left,
        Nat.mod_eq_of_lt (show v % 256 < 256 * 256 ^ w by omega),
        Nat.mod_eq_of_lt (by omega)]
      omega
    simp only [leBytes, readLE, List.foldr_cons]
    have : readLE (leBytes w (v / 256)) = v / 256 % 256 ^ w := ih (v / 256)
    simp only [readLE] at this
    rw [this, key]

theorem hexVal_upperAscii (c : Nat) : hexVal (upperAscii c) = hexVal c := by
  unfold upperAscii hexVal
  split_ifs <;> first
    | rfl
    | omega

theorem hexVal_ne_markers {b : Nat} (h : (hexVal b).isSome = true) :
    b ≠ 120 ∧ b ≠ 88 := by
  unfold hexVal at h
  split_ifs at h <;> first | omega | simp at h

theorem decodeHex_map_upper : ∀ s : List Nat,
    decodeHex (List.map upperAscii s) = decodeHex s
  | [] => rfl
  | [_] => rfl
  | c1 :: c2 :: rest => by
    simp only [List.map_cons, decodeHex, hexVal_upperAscii,
      decodeHex_map_upper rest]

/-- C5: for every receipt, `is_unconditional` returns true exactly when the
kind is Succinct, Groth16 or Fake (false for Composite), and every receipt
with `is_unconditional` true has `assumption_count` 0. -/
theorem C5_is_unconditional_kinds (r : Receipt) :
    (r.isUnconditional = true ↔
      (r.kindOf = .succinct ∨ r.kindOf = .groth16 ∨ r.kindOf = .fake)) ∧
    (r.kindOf = .composite → r.isUnconditional = false) ∧
    (r.isUnconditional = true → r.assumptionCount = 0) := by
  obtain ⟨⟨k, j, ca, sv⟩⟩ := r
  cases k <;>
    simp [Receipt.isUnconditional, Receipt.kindOf, Receipt.assumptionCount]

/-- Witness for C5, evaluated at the concrete succinct receipt `rOk`. -/
theorem C5_witness :
    rOk.isUnconditional = true ∧ rOk.assumptionCount = 0 :=
  ⟨by decide, (C5_is_unconditional_kinds rOk).2.2 (by decide)⟩

/-- C6: `assume` on a composite receipt fails with the composite-rejection
error and leaves every composer field unchanged. -/
theorem C6_assume_rejects_composite (hash : HashFn) (c : Composer) (r : Receipt)
    (hk : r.kindOf = .composite) :
    Composer.assume hash c r = .error .isComposite ∧
    resultState (Composer.assume hash c r) c = c ∧
    (resultState (Composer.assume hash c r) c).assumptions = c.assumptions ∧
    (resultState (Composer.assume hash c r) c).assumptionDigests = c.assumptionDigests ∧
    (resultState (Composer.assume hash c r) c).inputData = c.inputData ∧
    (resultState (Composer.assume hash c r) c).expectedVerifications =
      c.expectedVerifications := by
  have hu : r.isUnconditional = false := by
    obtain ⟨⟨k, j, ca, sv⟩⟩ := r
    cases k <;> simp_all [Receipt.kindOf, Receipt.isUnconditional]
  have h1 : Composer.assume hash c r = .error .isComposite := by
    unfold Composer.assume
    rw [hu]
    rfl
  refine ⟨h1, ?_, ?_, ?_, ?_, ?_⟩ <;> rw [h1] <;> rfl

/-- Witness for C6, evaluated at the concrete composite receipt
`rComposite` and the fresh composer. -/
theorem C6_witness :
    Composer.assume hashW Composer.new rComposite = .error .isComposite ∧
    resultState (Composer.assume hashW Composer.new rComposite) Composer.new =
      Composer.new :=
  ⟨(C6_assume_rejects_composite hashW Composer.new rComposite (by decide)).1,
   (C6_assume_rejects_composite hashW Composer.new rComposite (by decide)).2.1⟩

/-- C7: deserializing a serialized receipt yields the same receipt, and
deserialization failure surfaces as the deserialize error (the bincode
codec is the parameter `sd`; its round-trip contract at the receipt at
hand is the hypothesis `hrt`). -/
theorem C7_receipt_roundtrip (sd : SerDe) (r : Receipt) (bs : List Nat)
    (hrt : sd.deser (sd.ser r.inner) = some r.inner)
    (hbad : sd.deser bs = none) :
    Receipt.fromBytes sd (Receipt.toBytes sd r) = .ok r ∧
    Receipt.fromBytes sd bs = .error .deserializeError := by
  unfold Receipt.fromBytes Receipt.toBytes
  rw [hrt, hbad]
  exact ⟨rfl, rfl⟩

/-- Witness for C7, evaluated at the concrete codec `sdW` and receipt
`rOk`. -/
theorem C7_witness :
    Receipt.fromBytes sdW (Receipt.toBytes sdW rOk) = .ok rOk ∧
    Receipt.fromBytes sdW [1] = .error .deserializeError :=
  C7_receipt_roundtrip sdW rOk [1] (by decide) (by decide)

/-- C9: `write_frame(b)` appends exactly the 8-byte little-endian length of
`b` followed by `b`, and a reader taking a little-endian `u64` and then
that many bytes recovers exactly `b`. -/
theorem C9_write_frame_framing (st : InputBuilder) (b : List Nat)
    (h : b.length < 2 ^ 64) :
    (st.writeFrame b).data = st.data ++ (leBytes 8 b.length ++ b) ∧
    (leBytes 8 b.length).length = 8 ∧
    readLE ((leBytes 8 b.length ++ b).take 8) = b.length ∧
    ((leBytes 8 b.length ++ b).drop 8).take
      (readLE ((leBytes 8 b.length ++ b).take 8)) = b := by
  have hlen : (leBytes 8 b.length).length = 8 := leBytes_length 8 b.length
  have htake : (leBytes 8 b.length ++ b).take 8 = leBytes 8 b.length :=
    List.take_left' hlen
  have hdrop : (leBytes 8 b.length ++ b).drop 8 = b :=
    List.drop_left' hlen
  have hread : readLE (leBytes 8 b.length) = b.length := by
    rw [readLE_leBytes]
    exact Nat.mod_eq_of_lt (by norm_num at h ⊢; omega)
  refine ⟨by simp [InputBuilder.writeFrame], hlen, ?_, ?_⟩
  · rw [htake, hread]
  · rw [htake, hread, hdrop, List.take_length]

/-- Witness for C9, evaluated at a concrete payload. -/
theorem C9_witness :
    (InputBuilder.new.writeFrame [10, 20, 30]).data =
      [] ++ (leBytes 8 3 ++ [10, 20, 30]) ∧
    readLE ((leBytes 8 3 ++ [10, 20, 30]).take 8) = 3 :=
  ⟨(C9_write_frame_framing InputBuilder.new [10, 20, 30] (by norm_num)).1,
   (C9_write_frame_framing InputBuilder.new [10, 20, 30] (by norm_num)).2.2.1⟩

/-- C10: when the exit has no user code (system split or session limit),
the legacy `exit_code` getter returns `u32::MAX`, the extracted claim
carries `u32::MAX` as its exit code, and `is_success` is false for it. -/
theorem C10_system_exit_code_max (hash : HashFn) (r : Receipt)
    (cl : R0ReceiptClaim) (hc : r.inner.claimAvail = .ok cl)
    (hx : cl.exit_code = .systemSplit ∨ cl.exit_code = .sessionLimit) :
    Receipt.exitCodeGetter r = .ok u32Max ∧
    Receipt.claimPy hash r = .ok (ClaimPy.fromRisc0 hash cl r.inner.journal) ∧
    (ClaimPy.fromRisc0 hash cl r.inner.journal).exit_code = u32Max ∧
    (ClaimPy.fromRisc0 hash cl r.inner.journal).isSuccess = false := by
  have hexit : Receipt.exit r = .ok (exitStatusOf cl.exit_code) := by
    unfold Receipt.exit
    rw [hc]
  have hcode : (exitStatusOf cl.exit_code).userCode = none := by
    rcases hx with hx | hx <;> rw [hx] <;> rfl
  refine ⟨?_, ?_, ?_, ?_⟩
  · unfold Receipt.exitCodeGetter
    rw [hexit]
    simp [hcode]
  · unfold Receipt.claimPy
    rw [hc]
  · unfold ClaimPy.fromRisc0
    rcases hx with hx | hx <;> rw [hx]
  · unfold ClaimPy.isSuccess ClaimPy.fromRisc0
    rcases hx with hx | hx <;> rw [hx] <;> simp [u32Max]

/-- Witness for C10, evaluated at the concrete system-split receipt
`rSys`. -/
theorem C10_witness :
    Receipt.exitCodeGetter rSys = .ok u32Max ∧
    (ClaimPy.fromRisc0 hashW ⟨List.replicate 32 6, .systemSplit⟩ [7]).isSuccess
      = false :=
  ⟨(C10_system_exit_code_max hashW rSys ⟨List.replicate 32 6, .systemSplit⟩
      (by decide) (Or.inl rfl)).1,
   (C10_system_exit_code_max hashW rSys ⟨List.replicate 32 6, .systemSplit⟩
      (by decide) (Or.inl rfl)).2.2.2⟩

/-- Counterexample to C2 as stated: `verify_integrity` is not equivalent to
seal consistency.  The receipt `rBadSeal` has a readable claim but a seal
the backend would reject, and `verify_integrity` succeeds on it anyway —
the source checks only that the claim decodes and is not pruned
(receipt.rs:359-374, including its own comment to that effect). -/
theorem C2_counterexample :
    ¬ (Receipt.verifyIntegrity rBadSeal = .ok () ↔
        rBadSeal.inner.sealValid = true) := by
  intro h
  have hb : rBadSeal.inner.sealValid = true := h.mp rfl
  exact absurd hb (by decide)

/-- C2 amended: `verify_integrity` succeeds exactly when the claim is
decodable and not pruned — it consults neither the seal nor the image id
nor the exit; and for a receipt with exit `Halted(1)`, full verification
fails for every expected image id while `verify_integrity` succeeds. -/
theorem C2_verify_integrity_claim_only (r : Receipt) :
    (Receipt.verifyIntegrity r = .ok () ↔
      ∃ cl, r.inner.claimAvail = .ok cl) ∧
    (∀ cl, r.inner.claimAvail = .ok cl → cl.exit_code = .halted 1 →
      Receipt.verifyIntegrity r = .ok () ∧
      (∀ expected, Receipt.verifyBytes r expected ≠ .ok ()) ∧
      (∀ s, Receipt.verifyHex r s ≠ .ok ())) := by
  constructor
  · unfold Receipt.verifyIntegrity
    cases hca : r.inner.claimAvail <;> simp
  · intro cl hca hexit
    have hverify : ∀ bytes : List Nat, r0verify r.inner bytes = false := by
      intro bytes
      unfold r0verify
      rw [hca]
      simp [hexit, exitStatusOf, ExitStatus.ok]
    refine ⟨?_, ?_, ?_⟩
    · unfold Receipt.verifyIntegrity
      rw [hca]
    · intro expected
      unfold Receipt.verifyBytes
      split_ifs with h1 h2
      · simp
      · rw [hverify expected] at h2
        exact absurd h2 (by simp)
      · simp
    · intro s
      unfold Receipt.verifyHex
      cases hdec : decodeHex (stripHexMarker s) with
      | none => simp
      | some bytes =>
        simp only [hverify]
        split_ifs <;> simp_all

/-- Witness for the amended C2, evaluated at the concrete failed-exit
receipt `rHalted1`. -/
theorem C2_witness :
    Receipt.verifyIntegrity rHalted1 = .ok () ∧
    Receipt.verifyBytes rHalted1 (List.replicate 32 4) ≠ .ok () :=
  ⟨((C2_verify_integrity_claim_only rHalted1).2
      ⟨List.replicate 32 4, .halted 1⟩ (by decide) rfl).1,
   ((C2_verify_integrity_claim_only rHalted1).2
      ⟨List.replicate 32 4, .halted 1⟩ (by decide) rfl).2.1
      (List.replicate 32 4)⟩

theorem stripHexMarker_marker (h : List Nat) :
    stripHexMarker (48 :: 120 :: h) = h := by
  simp [stripHexMarker]

theorem stripHexMarker_hex {a b : Nat} (t : List Nat)
    (hb : (hexVal b).isSome = true) :
    stripHexMarker (a :: b :: t) = a :: b :: t := by
  obtain ⟨h120, h88⟩ := hexVal_ne_markers hb
  simp only [stripHexMarker]
  rw [if_neg (by omega)]

/-- C8: `verify_hex` is insensitive to a `0x` marker and to ASCII case on a
64-character hex string, and a string whose stripped form decodes to other
than 32 bytes is rejected with the length error. -/
theorem C8_verify_hex_robust (r : Receipt) (h : List Nat)
    (hlen : h.length = 64)
    (hhex : ∀ c ∈ h, (hexVal c).isSome = true) :
    Receipt.verifyHex r (48 :: 120 :: h) = Receipt.verifyHex r h ∧
    Receipt.verifyHex r (List.map upperAscii h) = Receipt.verifyHex r h ∧
    (∀ s bytes, decodeHex (stripHexMarker s) = some bytes → bytes.length ≠ 32 →
      Receipt.verifyHex r s = .error (.invalidLength bytes.length)) := by
  obtain ⟨a, h1⟩ : ∃ a t, h = a :: t := by
    cases h with
    | nil => simp at hlen
    | cons a t => exact ⟨a, t, rfl⟩
  obtain ⟨t, rfl⟩ := h1
  obtain ⟨b, t', rfl⟩ : ∃ b t', t = b :: t' := by
    cases t with
    | nil => simp at hlen
    | cons b t' => exact ⟨b, t', rfl⟩
  have hbhex : (hexVal b).isSome = true := hhex b (by simp)
  have hstrip : stripHexMarker (a :: b :: t') = a :: b :: t' :=
    stripHexMarker_hex t' hbhex
  have hbupper : (hexVal (upperAscii b)).isSome = true := by
    rw [hexVal_upperAscii]; exact hbhex
  have hstripU : stripHexMarker (upperAscii a :: upperAscii b :: List.map upperAscii t') =
      upperAscii a :: upperAscii b :: List.map upperAscii t' :=
    stripHexMarker_hex _ hbupper
  refine ⟨?_, ?_, ?_⟩
  · unfold Receipt.verifyHex
    rw [stripHexMarker_marker, hstrip]
  · unfold Receipt.verifyHex
    rw [List.map_cons, List.map_cons, hstripU, hstrip]
    rw [show upperAscii a :: upperAscii b :: List.map upperAscii t' =
      List.map upperAscii (a :: b :: t') by simp]
    rw [decodeHex_map_upper]
  · intro s bytes hdec hne
    unfold Receipt.verifyHex
    rw [hdec]
    simp only [if_pos hne]

/-- Witness for C8, evaluated at a concrete 64-character hex string (64
copies of ASCII `a`), whose uppercased form is 64 copies of `A`. -/
theorem C8_witness :
    Receipt.verifyHex rOk (48 :: 120 :: List.replicate 64 97) =
      Receipt.verifyHex rOk (List.replicate 64 97) ∧
    Receipt.verifyHex rOk (List.map upperAscii (List.replicate 64 97)) =
      Receipt.verifyHex rOk (List.replicate 64 97) ∧
    Receipt.verifyHex rOk [48, 97] = .error (.invalidLength 1) := by
  have main := C8_verify_hex_robust rOk (List.replicate 64 97) (by decide)
    (by decide)
  exact ⟨main.1, main.2.1, main.2.2 [48, 97] [10] (by decide) (by decide)⟩

/-- Counterexample to C1 as stated: `prove` does not consume the Composer.
On the fresh composer, `prove` succeeds (empty preflight passes and the
backend returns a receipt), the composer state after the call is the state
before it — `prove` takes `&self` (composer.rs:360) and the source has no
`Done` state and no `ComposerConsumed` error — and subsequent `assume`,
`preflight_check` and `write_u32` calls all succeed rather than fail. -/
theorem C1_counterexample :
    (Composer.prove hashW Composer.new none true (.ok rOk.inner)).1 =
      .ok ⟨rOk.inner⟩ ∧
    (Composer.prove hashW Composer.new none true (.ok rOk.inner)).2 =
      Composer.new ∧
    isOkE (Composer.assume hashW Composer.new rOk) = true ∧
    Composer.assume hashW Composer.new rOk = .ok cW1 ∧
    Composer.new.preflightCheck hashW true = .ok [] ∧
    Composer.writeU32 Composer.new 7 =
      { Composer.new with inputData := leBytes 4 7 } :=
  ⟨rfl, rfl, rfl, rfl, rfl, rfl⟩

/-- C1 amended: a successful `prove` performs no state transition — the
Composer is unchanged by the call (it is taken by shared reference), and
every subsequent operation (`assume`, `write_u32`, `expect_verification`,
`preflight_check`, and `prove` itself) behaves exactly as on the composer
before the call; no consumed-composer error exists in the source. -/
theorem C1_prove_preserves_composer (hash : HashFn) (c : Composer)
    (kindArg : Option ReceiptKind) (preflight : Bool)
    (pr : Except Bool R0Receipt) (r : Receipt) (v : Nat) (i j : List Nat) :
    (Composer.prove hash c kindArg preflight pr).2 = c ∧
    Composer.assume hash (Composer.prove hash c kindArg preflight pr).2 r =
      Composer.assume hash c r ∧
    Composer.writeU32 (Composer.prove hash c kindArg preflight pr).2 v =
      Composer.writeU32 c v ∧
    Composer.expectVerification (Composer.prove hash c kindArg preflight pr).2 i j =
      Composer.expectVerification c i j ∧
    (Composer.prove hash c kindArg preflight pr).2.preflightCheck hash true =
      c.preflightCheck hash true ∧
    Composer.prove hash (Composer.prove hash c kindArg preflight pr).2
        kindArg preflight pr =
      Composer.prove hash c kindArg preflight pr :=
  ⟨rfl, rfl, rfl, rfl, rfl, rfl⟩

theorem assume_ok_new {hash : HashFn} {r : Receipt} {c1 : Composer}
    (h1 : Composer.assume hash Composer.new r = .ok c1) :
    ∃ cl, r.inner.claimAvail = .ok cl ∧
      r.isUnconditional = true ∧
      (r.kindOf == ReceiptKind.fake) = false ∧
      (exitStatusOf cl.exit_code).ok = true ∧
      c1 = ⟨[r.inner], [(cl.pre, hash r.inner.journal)], [], []⟩ := by
  unfold Composer.assume at h1
  split at h1
  · cases h1
  next hu =>
  split at h1
  · cases h1
  next hf =>
  split at h1
  · cases h1
  · cases h1
  next cl hca =>
  split at h1
  · cases h1
  next hex =>
  split at h1
  next hmem =>
    exact absurd hmem (by simp [Composer.new])
  next hmem =>
    cases h1
    refine ⟨cl, hca, by simpa using hu, by simpa using hf, by simpa using hex, ?_⟩
    simp [Composer.new]

theorem assume_key_present (hash : HashFn) (c : Composer) (r : Receipt)
    (k : ClaimKey) (hkey : claimKeyOf hash r.inner = some k)
    (hmem : k ∈ c.assumptionDigests) :
    resultState (Composer.assume hash c r) c = c := by
  unfold Composer.assume
  split
  · rfl
  split
  · rfl
  split
  · rfl
  · rfl
  next cl hca =>
  split
  · rfl
  split
  · rfl
  next hnot =>
  exfalso
  apply hnot
  unfold claimKeyOf at hkey
  rw [hca] at hkey
  simp only [Option.some.injEq] at hkey
  rw [hkey]
  exact hmem

/-- C4: once a receipt is accepted by `assume` on a fresh composer, a second
`assume` of the same receipt returns the composer unchanged, and any
`assume` of a receipt carrying the same claim key also leaves the state
unchanged — assumption count stays 1 and the first-inserted receipt stays
the (only) entry of the list. -/
theorem C4_assume_dedup_idempotent (hash : HashFn) (r r2 : Receipt)
    (c1 : Composer) (h1 : Composer.assume hash Composer.new r = .ok c1)
    (hk : claimKeyOf hash r2.inner = claimKeyOf hash r.inner) :
    Composer.assume hash c1 r = .ok c1 ∧
    resultState (Composer.assume hash c1 r2) c1 = c1 ∧
    c1.assumptions = [r.inner] ∧
    c1.assumptionCount = 1 := by
  obtain ⟨cl, hca, hu, hf, hex, hc1⟩ := assume_ok_new h1
  subst hc1
  have hkey : claimKeyOf hash r.inner = some (cl.pre, hash r.inner.journal) := by
    unfold claimKeyOf
    rw [hca]
  refine ⟨?_, ?_, rfl, rfl⟩
  · unfold Composer.assume
    rw [hca]
    simp [hu, hf, hex]
  · exact assume_key_present hash _ r2 (cl.pre, hash r.inner.journal)
      (hk.trans hkey) (by simp)

/-- Witness for C4, evaluated at the concrete receipts `rOk` and `rOk2`
(distinct receipts sharing one claim key) on the fresh composer. -/
theorem C4_witness :
    Composer.assume hashW cW1 rOk = .ok cW1 ∧
    resultState (Composer.assume hashW cW1 rOk2) cW1 = cW1 ∧
    cW1.assumptions = [rOk.inner] ∧
    cW1.assumptionCount = 1 :=
  C4_assume_dedup_idempotent hashW rOk rOk2 cW1 (by rfl) (by rfl)

theorem composerWF_new (hash : HashFn) : ComposerWF hash Composer.new :=
  ⟨rfl, List.nodup_nil, by simp [Composer.new]⟩

theorem composerWF_assume {hash : HashFn} {c c' : Composer} {r : Receipt}
    (hwf : ComposerWF hash c) (h : Composer.assume hash c r = .ok c') :
    ComposerWF hash c' := by
  unfold Composer.assume at h
  split at h
  · cases h
  split at h
  · cases h
  split at h
  · cases h
  · cases h
  next cl hca =>
  split at h
  · cases h
  split at h
  · cases h
    exact hwf
  next hmem =>
  cases h
  have hkey : claimKeyOf hash r.inner = some (cl.pre, hash r.inner.journal) := by
    unfold claimKeyOf
    rw [hca]
  refine ⟨?_, ?_, ?_⟩
  · show c.assumptionDigests ++ _ = aKeys hash _
    rw [hwf.digests_eq]
    simp [aKeys, List.filterMap_append, hkey]
  · show (c.assumptionDigests ++ _).Nodup
    simp [List.nodup_append, hwf.digests_nodup, hmem]
  · exact hwf.expectLen

theorem composerWF_expect {hash : HashFn} {c c' : Composer} {i j : List Nat}
    (hwf : ComposerWF hash c) (h : Composer.expectVerification c i j = .ok c') :
    ComposerWF hash c' := by
  unfold Composer.expectVerification at h
  split at h
  · cases h
  next hlen =>
  cases h
  refine ⟨hwf.digests_eq, hwf.digests_nodup, ?_⟩
  intro p hp
  simp only [List.mem_append, List.mem_singleton] at hp
  rcases hp with hp | rfl
  · exact hwf.expectLen p hp
  · show i.length = 32
    omega

theorem reachable_wf {hash : HashFn} {c : Composer} (h : Reachable hash c) :
    ComposerWF hash c := by
  induction h with
  | new => exact composerWF_new hash
  | assume _ hstep ih => exact composerWF_assume ih hstep
  | expect _ hstep ih => exact composerWF_expect ih hstep
  | write bs _ ih => exact ⟨ih.digests_eq, ih.digests_nodup, ih.expectLen⟩

theorem count_bridge (k : ClaimKey) (l : List ClaimKey) :
    List.count k l = @List.count ClaimKey instBEqOfDecidableEq k l := by
  induction l with
  | nil => rfl
  | cons x xs ih =>
    simp only [List.count_cons, ih]
    congr 1
    by_cases h : x = k
    · subst h
      simp [instBEqOfDecidableEq]
    · simp [instBEqOfDecidableEq, h]

/-- C3: when `preflight_check(raise_on_error = true)` returns without error
on an API-reachable composer, the multiset of claim keys of its
expectations equals the multiset of claim keys of its assumptions. -/
theorem C3_preflight_soundness (hash : HashFn) (c : Composer)
    (issues : List Issue) (hr : Reachable hash c)
    (h : c.preflightCheck hash true = .ok issues) :
    (aKeys hash c : Multiset ClaimKey) = (eKeysAll hash c : Multiset ClaimKey) := by
  have hwf : ComposerWF hash c := reachable_wf hr
  have hempty : preflightIssues hash c = [] := by
    unfold Composer.preflightCheck at h
    split at h
    · cases h
    next hcond =>
      simp only [Bool.true_and, Bool.not_eq_true', Bool.not_eq_false] at hcond
      exact List.isEmpty_iff.mp hcond
  have hsplit := hempty
  unfold preflightIssues at hsplit
  simp only [List.append_eq_nil] at hsplit
  obtain ⟨⟨-, hmiss⟩, hunused⟩ := hsplit
  have heall : eKeys hash c = eKeysAll hash c := by
    unfold eKeys eKeysAll
    rw [List.filter_eq_self.mpr (fun p hp => by simp [hwf.expectLen p hp])]
  have hanodup : (aKeys hash c).Nodup := hwf.digests_eq ▸ hwf.digests_nodup
  have hmiss' : ∀ k ∈ (eKeys hash c).dedup,
      (aKeys hash c).count k ≠ 0 ∧
      ¬((aKeys hash c).count k < (eKeys hash c).count k) := by
    intro k hk
    have hnone := List.filterMap_eq_nil_iff.mp hmiss k hk
    by_cases h0 : (aKeys hash c).count k = 0
    · simp [h0] at hnone
    · by_cases h1 : (aKeys hash c).count k < (eKeys hash c).count k
      · simp [h0, h1] at hnone
      · exact ⟨h0, h1⟩
  have hunused' : ∀ k ∈ (aKeys hash c).dedup, (eKeys hash c).count k ≠ 0 := by
    intro k hk h0
    have hnone := List.filterMap_eq_nil_iff.mp hunused k hk
    simp [h0] at hnone
  have hcount : ∀ k, (aKeys hash c).count k = (eKeys hash c).count k := by
    intro k
    by_cases hke : (eKeys hash c).count k = 0
    · by_contra hne
      have hapos : 0 < (aKeys hash c).count k := by omega
      have hk : k ∈ (aKeys hash c).dedup :=
        List.mem_dedup.mpr (List.count_pos_iff.mp hapos)
      exact hunused' k hk hke
    · have hkpos : 0 < (eKeys hash c).count k := by omega
      have hk : k ∈ (eKeys hash c).dedup :=
        List.mem_dedup.mpr (List.count_pos_iff.mp hkpos)
      obtain ⟨h0, h1⟩ := hmiss' k hk
      have hle1 : (aKeys hash c).count k ≤ 1 := by
        rw [count_bridge]
        exact List.nodup_iff_count_le_one.mp hanodup k
      omega
  rw [← heall]
  refine Multiset.coe_eq_coe.mpr (List.perm_iff_count.mpr ?_)
  intro a
  rw [← count_bridge, ← count_bridge]
  exact hcount a

/-- Witness for C3, evaluated on the concrete composer `cW2` (one accepted
assumption and one matching expectation), with reachability established by
the constructor chain. -/
theorem C3_witness :
    (aKeys hashW cW2 : Multiset ClaimKey) = (eKeysAll hashW cW2 : Multiset ClaimKey) :=
  C3_preflight_soundness hashW cW2 []
    (Reachable.expect
      (Reachable.assume Reachable.new
        (show Composer.assume hashW Composer.new rOk = .ok cW1 from rfl))
      (show Composer.expectVerification cW1 (List.replicate 32 2) [1] = .ok cW2
        from rfl))
    (by rfl)
